import Mathlib

/-!
Shallow embedding of the restaman library (src/index.js): a REST layer over a
document mapper. JavaScript values are modelled by `JValue`; machine behaviour
that matters to the handlers (truthiness, `typeof`, `instanceof`, property
lookup and assignment, the `String`/`Number` coercions) is embedded explicitly.
Route handlers are modelled as functions producing an event trace (`Ev`):
hook-phase invocations, mapper calls, the response sent and errors forwarded to
`next`, in program order. Mapper results are passed in as parameters since the
mapper itself is an external collaborator.
-/

/-- JavaScript runtime values, as far as the library inspects them. Objects
are association lists of named fields; numeric values are modelled as integers
(the handlers only compare and copy them). -/
inductive JValue where
  | undefined
  | null
  | bool (b : Bool)
  | num (n : Int)
  | str (s : String)
  | arr (elems : List JValue)
  | obj (fields : List (String × JValue))

/-- Property lookup on a field list: first binding wins, missing fields read
as `undefined` (JavaScript object semantics). -/
def lookupField : List (String × JValue) → String → JValue
  | [], _ => .undefined
  | (k, v) :: rest, f => if k = f then v else lookupField rest f

/-- Property read `v[f]`; non-objects have no named own properties here. -/
def getField : JValue → String → JValue
  | .obj fs, f => lookupField fs f
  | _, _ => .undefined

/-- Property assignment on a field list: replaces the existing binding in
place, otherwise appends. -/
def setFields : List (String × JValue) → String → JValue → List (String × JValue)
  | [], k, v => [(k, v)]
  | (k1, v1) :: rest, k, v => if k1 = k then (k, v) :: rest else (k1, v1) :: setFields rest k v

/-- Property write `target[k] = v`; assignments to primitives are dropped (the
handlers only assign into mapper documents and query objects, which are
objects). -/
def setField : JValue → String → JValue → JValue
  | .obj fs, k, v => .obj (setFields fs k v)
  | x, _, _ => x

/-- JavaScript truthiness. -/
def truthy : JValue → Bool
  | .undefined => false
  | .null => false
  | .bool b => b
  | .num n => n != 0
  | .str s => s ≠ ""
  | .arr _ => true
  | .obj _ => true

/-- JavaScript `typeof` (note `typeof null` is `"object"`). -/
def typeof : JValue → String
  | .undefined => "undefined"
  | .null => "object"
  | .bool _ => "boolean"
  | .num _ => "number"
  | .str _ => "string"
  | .arr _ => "object"
  | .obj _ => "object"

/-- JavaScript `x instanceof Array`. -/
def instanceOfArray : JValue → Bool
  | .arr _ => true
  | _ => false

/-- JavaScript `x instanceof Object`: true for arrays and plain objects, false
for every primitive (booleans included). -/
def instanceOfObject : JValue → Bool
  | .arr _ => true
  | .obj _ => true
  | _ => false

/-- JavaScript `String(v)` coercion, on the primitive values the query parser
actually receives; composite coercions (array join, object toString) are
modelled shallowly since no handler path feeds them to `String`. -/
def jsString : JValue → String
  | .str s => s
  | .num n => toString n
  | .bool b => if b then "true" else "false"
  | .null => "null"
  | .undefined => "undefined"
  | .arr _ => ""
  | .obj _ => "[object Object]"

/-- Value of a decimal digit character. -/
def digitVal (c : Char) : Option Nat :=
  if c.isDigit then some (c.toNat - 48) else none

/-- Decimal reading of a non-empty digit sequence. -/
def natFromDigits : List Char → Option Nat
  | [] => none
  | cs => cs.foldl
      (fun acc c => match acc, digitVal c with
        | some n, some d => some (n * 10 + d)
        | _, _ => none)
      (some 0)

/-- Decimal integer reading of a string, with an optional leading minus;
`none` for anything else. -/
def strToIntModel (s : String) : Option Int :=
  match s.data with
  | '-' :: rest => (natFromDigits rest).map (fun n => -(n : Int))
  | cs => (natFromDigits cs).map (fun n => (n : Int))

/-- JavaScript `Number(v)` coercion; `none` stands for NaN. Numeric strings
are modelled as decimal integer literals (the query parser only meets
query-string integers); `Number("")` is 0 as in JavaScript. -/
def jsNumber : JValue → Option Int
  | .num n => some n
  | .bool b => some (if b then 1 else 0)
  | .null => some 0
  | .undefined => none
  | .str s => if s = "" then some 0 else strToIntModel s
  | .arr _ => none
  | .obj _ => none

/-- JavaScript `a || b`. -/
def jsOr (a b : JValue) : JValue :=
  if truthy a then a else b

/-- Error objects as the handlers shape them: JavaScript errors carry a
message, a name, and (depending on the construction site) a `statusCode` or a
`status` field. -/
structure ErrInfo where
  message : String
  name : String
  statusCode : Option Nat := none
  status : Option Nat := none
deriving DecidableEq

/-- The `NotFoundError` class: `super('Document Not Found')`,
`this.statusCode = 404`, `this.name = 'Not Found'`. -/
def notFoundError : ErrInfo :=
  { message := "Document Not Found", name := "Not Found", statusCode := some 404 }

/-- The error built inside `findById`: `error.message = 'Not Found'`,
`error.name = 'ModelNotFound'`, `error.status = 404` (note: `status`, not
`statusCode`). -/
def findByIdError : ErrInfo :=
  { message := "Not Found", name := "ModelNotFound", status := some 404 }

/-- The `TypeError('Only objects allowed')` raised by `create`, with
`error.statusCode = 400`. -/
def onlyObjectsError : ErrInfo :=
  { message := "Only objects allowed", name := "TypeError", statusCode := some 400 }

/-- Observable events of one handler run, in program order. `hook phase action`
records an `applyHooks(phase, action, ...)` invocation; the `mapper...` events
record the single mapper call the handler performs; `send` is the response
body; `nextErr` is an error forwarded to the `next` error channel. -/
inductive Ev where
  | hook (phase action : String)
  | mapperCreate (body : JValue)
  | mapperFindOne (filter : JValue) (projection : Option JValue) (populate : Option JValue)
  | mapperSave (doc : JValue)
  | mapperRemove (doc : JValue)
  | mapperCount (filter : JValue)
  | send (v : JValue)
  | nextErr (e : ErrInfo)

/-- Response bodies sent during a run. -/
def sentOf (evs : List Ev) : List JValue :=
  evs.filterMap fun e => match e with | .send v => some v | _ => none

/-- Errors forwarded to `next` during a run. -/
def errsOf (evs : List Ev) : List ErrInfo :=
  evs.filterMap fun e => match e with | .nextErr x => some x | _ => none

/-- Hook phases applied during a run, as (phase, action) pairs. -/
def hooksOf (evs : List Ev) : List (String × String) :=
  evs.filterMap fun e => match e with | .hook p a => some (p, a) | _ => none

/-- Documents passed to the mapper `save` call during a run. -/
def savesOf (evs : List Ev) : List JValue :=
  evs.filterMap fun e => match e with | .mapperSave d => some d | _ => none

/-- Documents passed to the mapper `remove` call during a run. -/
def removesOf (evs : List Ev) : List JValue :=
  evs.filterMap fun e => match e with | .mapperRemove d => some d | _ => none

/-- Filters passed to the mapper `count` call during a run. -/
def countFiltersOf (evs : List Ev) : List JValue :=
  evs.filterMap fun e => match e with | .mapperCount f => some f | _ => none

/-- Bodies passed to the mapper `create` call during a run. -/
def createBodiesOf (evs : List Ev) : List JValue :=
  evs.filterMap fun e => match e with | .mapperCreate b => some b | _ => none

/-- Events of `initModel`: `applyHooks('pre','init',...)`, model resolution,
`applyHooks('post','init',...)`. -/
def initEvents : List Ev :=
  [Ev.hook "pre" "init", Ev.hook "post" "init"]

/-! ## Hook registry (`addHook` / `applyHooks`)

One phase sub-table (`this.hooks[type]`) is a JavaScript object mapping an
action key to an array of callbacks; callbacks are identified by `Nat` ids.
The `type` argument of the source merely selects the `pre` or `post`
sub-table, on which both operations act. -/

/-- One phase's hook table: JavaScript object keyed by action name. -/
abbrev HookTable := List (String × List Nat)

/-- Object property read on the hook table. -/
def htLookup : HookTable → String → Option (List Nat)
  | [], _ => none
  | (k, v) :: rest, s => if k = s then some v else htLookup rest s

/-- Object property write on the hook table: replace in place or append. -/
def htSet : HookTable → String → List Nat → HookTable
  | [], k, v => [(k, v)]
  | (k1, v1) :: rest, k, v => if k1 = k then (k, v) :: rest else (k1, v1) :: htSet rest k v

/-- The callback array stored for a key, empty when absent. -/
def bucket (t : HookTable) (s : String) : List Nat :=
  match htLookup t s with
  | some l => l
  | none => []

/-- The `action` argument of `addHook`: a single action name or an array of
action names. -/
inductive ActionArg where
  | single (s : String)
  | multi (l : List String)
deriving DecidableEq

/-- The property key an `ActionArg` coerces to when used as an object index:
arrays stringify by joining with commas. -/
def keyOf : ActionArg → String
  | .single s => s
  | .multi l => String.intercalate "," l

/-- The guard `if (!this.hooks[type][action]) this.hooks[type][action] = []`:
creates an empty array at the key when absent (an existing array, even empty,
is truthy). -/
def ensureKey (t : HookTable) (k : String) : HookTable :=
  match htLookup t k with
  | none => htSet t k []
  | some _ => t

/-- The recursive call `addHook(type, _action, callback)` made for each element
of an array action: guard then `push`. -/
def addHookSingle (t : HookTable) (s : String) (cb : Nat) : HookTable :=
  let t1 := ensureKey t s
  htSet t1 s (bucket t1 s ++ [cb])

/-- `addHook(type, action, callback)`: the guard runs first with the coerced
key, then an array action fans out element-wise while a single action pushes
the callback onto its bucket. -/
def addHook (t : HookTable) (a : ActionArg) (cb : Nat) : HookTable :=
  let t1 := ensureKey t (keyOf a)
  match a with
  | .multi l => l.foldl (fun acc s => addHookSingle acc s cb) t1
  | .single s => htSet t1 s (bucket t1 s ++ [cb])

/-- `applyHooks(type, action, req, res, data)`: concatenates the bucket for the
action with the bucket for `'all'` and calls each callback with
`(req, res, data)`; the invocation list records, in order, each callback id
with the arguments it receives. -/
def applyHooks (t : HookTable) (action : String) (req : ρ) (res : σ) (data : α) :
    List (Nat × ρ × σ × α) :=
  ((match htLookup t action with | some l => l | none => []) ++
   (match htLookup t "all" with | some l => l | none => [])).map
    (fun h => (h, req, res, data))

/-- A hook table built by a sequence of `addHook` registrations from the empty
table. -/
def buildHooks (regs : List (ActionArg × Nat)) : HookTable :=
  regs.foldl (fun t r => addHook t r.1 r.2) []

/-- Number of occurrences of a string in a list. -/
def countOcc (s : String) : List String → Nat
  | [] => 0
  | x :: xs => (if x = s then 1 else 0) + countOcc s xs

/-- How many times one registration targets a given action: once for a
matching single name, once per occurrence in an array action. -/
def matchCount : ActionArg → String → Nat
  | .single x, s => if x = s then 1 else 0
  | .multi l, s => countOcc s l

/-- The callbacks a registration sequence registers for an action, in
registration order. -/
def registeredFor : List (ActionArg × Nat) → String → List Nat
  | [], _ => []
  | r :: rs, s => List.replicate (matchCount r.1 s) r.2 ++ registeredFor rs s

/-! ## Query parsing (`parseQuery` and friends)

`jp` stands for the host `JSON.parse`: `some v` is a successful parse, `none`
a thrown syntax error. The claims settled here never depend on a successful
parse, so `jp` is kept as a parameter. -/

/-- The helper `parseJSON`: starts from an empty object and swallows the parse
failure. -/
def parseJSON (jp : String → Option JValue) (s : String) : JValue :=
  (jp s).getD (JValue.obj [])

/-- Whether a value is the JavaScript `null` (for the `query.filter !== null`
guard). -/
def isNull : JValue → Bool
  | .null => true
  | _ => false

/-- `parseQueryFilter(query)`: keeps an object filter as-is, JSON-parses a
string filter through `parseJSON`, and stays at the empty object otherwise. -/
def parseQueryFilter (jp : String → Option JValue) (q : JValue) : JValue :=
  let f := getField q "filter"
  if isNull f then JValue.obj []
  else if typeof f = "object" then f
  else if typeof f = "string" then
    match f with
    | .str s => parseJSON jp s
    | _ => JValue.obj []
  else JValue.obj []

/-- `parseQueryPopulate(query)`: absent when the populate parameter is falsy,
else the JSON parse of it with the raw value as fallback on a parse error. -/
def parseQueryPopulate (jp : String → Option JValue) (q : JValue) : Option JValue :=
  let p := getField q "populate"
  if truthy p then
    some (match p with
      | .str s => (jp s).getD p
      | v => (jp (jsString v)).getD v)
  else none

/-- `parseQueryProjection(query)`: `query.projection || null`, then a JSON
parse attempt whose failure leaves the raw value in place. -/
def parseQueryProjection (jp : String → Option JValue) (q : JValue) : JValue :=
  let p := jsOr (getField q "projection") JValue.null
  if truthy p then
    match p with
    | .str s => (jp s).getD p
    | v => (jp (jsString v)).getD v
  else p

/-- A value stored in the parsed `options` object: the `sort` formatter stores
a string, `skip` and `limit` store numbers (`none` standing for NaN). -/
inductive OptVal where
  | strv (s : String)
  | numv (n : Option Int)
deriving DecidableEq

/-- Lookup in the parsed options object. -/
def optLookup : List (String × OptVal) → String → Option OptVal
  | [], _ => none
  | (k, v) :: rest, s => if k = s then some v else optLookup rest s

/-- The three formatters of `parseQueryOptions`, by key: `sort` is
`String(value)`, `skip` is `Number(value || q.start)`, `limit` is
`Number(value)`. -/
def formatOption (key : String) (value : JValue) (q : JValue) : OptVal :=
  if key = "sort" then .strv (jsString value)
  else if key = "skip" then .numv (jsNumber (jsOr value (getField q "start")))
  else .numv (jsNumber value)

/-- Iteration order of the formatters object. -/
def optionKeys : List String := ["sort", "skip", "limit"]

/-- `parseQueryOptions(query)`: for each formatter key present in the query
(`typeof query[key] !== 'undefined'`), stores the formatted value; absent keys
are never added. -/
def parseQueryOptions (q : JValue) : List (String × OptVal) :=
  optionKeys.foldl
    (fun opts key =>
      if typeof (getField q key) ≠ "undefined" then
        opts ++ [(key, formatOption key (getField q key) q)]
      else opts)
    []

/-- The query descriptor `parseQuery` assembles. -/
structure ParsedQuery where
  filter : JValue
  populate : Option JValue
  options : List (String × OptVal)
  projection : JValue

/-- `parseQuery(query)`. -/
def parseQuery (jp : String → Option JValue) (q : JValue) : ParsedQuery :=
  { filter := parseQueryFilter jp q
    populate := parseQueryPopulate jp q
    options := parseQueryOptions q
    projection := parseQueryProjection jp q }

/-! ## Route handlers

Each handler is a function from the request data and the mapper's outcome to
its event trace. `Sum.inl` is a fulfilled mapper promise, `Sum.inr` a
rejection. -/

/-- `create(req, res, next)`. The source guard is
`req.body instanceof Array || !req.body instanceof Object`; by JavaScript
precedence the second disjunct reads `(!req.body) instanceof Object`, a
boolean primitive tested against `Object`, and is embedded exactly that way. -/
def createHandler (body : JValue) (mapperResult : JValue ⊕ ErrInfo) : List Ev :=
  if instanceOfArray body || instanceOfObject (JValue.bool (! truthy body)) then
    [Ev.nextErr onlyObjectsError]
  else
    initEvents ++ [Ev.hook "pre" "create", Ev.mapperCreate body] ++
    match mapperResult with
    | .inl doc => [Ev.hook "post" "create", Ev.send doc]
    | .inr e => [Ev.nextErr e]

/-- `findOne(req, res, next)`: parses the query, forces `filter._id` to the
route id, runs the pre hook, performs the lookup, and either raises
`NotFoundError` on a null document or runs the post hook and sends the
document. `lookupResult` is the document the mapper resolves with. -/
def findOneHandler (jp : String → Option JValue) (rawQuery : JValue) (id : String)
    (lookupResult : Option JValue) : List Ev :=
  initEvents ++
  (let query := parseQuery jp rawQuery
   let filter := setField query.filter "_id" (JValue.str id)
   [Ev.hook "pre" "findOne",
    Ev.mapperFindOne filter (some query.projection) query.populate] ++
   match lookupResult with
   | none => [Ev.nextErr notFoundError]
   | some doc => [Ev.hook "post" "findOne", Ev.send doc])

/-- `Object.assign(doc, req.body)`: copies the body's own fields onto the
document in order. -/
def objAssign (target src : JValue) : JValue :=
  match src with
  | .obj fs => fs.foldl (fun d p => setField d p.1 p.2) target
  | _ => target

/-- `update(req, res, next)`: `findById` (a mapper `findOne` on `{_id: id}`
that rejects with `findByIdError` when the document is null), then the pre
hook, `Object.assign(doc, req.body).save()`, the post hook and the response;
every rejection lands in `next`. -/
def updateHandler (body : JValue) (id : String) (lookupResult : Option JValue)
    (saveResult : JValue ⊕ ErrInfo) : List Ev :=
  initEvents ++
  [Ev.mapperFindOne (JValue.obj [("_id", JValue.str id)]) none none] ++
  match lookupResult with
  | none => [Ev.nextErr findByIdError]
  | some doc =>
    [Ev.hook "pre" "update", Ev.mapperSave (objAssign doc body)] ++
    match saveResult with
    | .inl d2 => [Ev.hook "post" "update", Ev.send d2]
    | .inr e => [Ev.nextErr e]

/-- `delete(req, res, next)`: same shape as `update` with `doc.remove()` as
the write. -/
def deleteHandler (id : String) (lookupResult : Option JValue)
    (removeResult : JValue ⊕ ErrInfo) : List Ev :=
  initEvents ++
  [Ev.mapperFindOne (JValue.obj [("_id", JValue.str id)]) none none] ++
  match lookupResult with
  | none => [Ev.nextErr findByIdError]
  | some doc =>
    [Ev.hook "pre" "delete", Ev.mapperRemove doc] ++
    match removeResult with
    | .inl d2 => [Ev.hook "post" "delete", Ev.send d2]
    | .inr e => [Ev.nextErr e]

/-- `count(req, res, next)`: parses `{filter: req.query}` — the whole query
mapping becomes the filter — counts, and sends `{count: count}`. -/
def countHandler (jp : String → Option JValue) (reqQuery : JValue)
    (countResult : Int ⊕ ErrInfo) : List Ev :=
  initEvents ++
  (let query := parseQuery jp (JValue.obj [("filter", reqQuery)])
   [Ev.hook "pre" "count", Ev.mapperCount query.filter] ++
   match countResult with
   | .inl n => [Ev.hook "post" "count", Ev.send (JValue.obj [("count", JValue.num n)])]
   | .inr e => [Ev.nextErr e])

/-! ## Field hiding (`hide` and the hook `setupModel` registers) -/

/-- The closure `removeHidden` in `setupModel`: sets every hidden field to
`undefined` on a document. -/
def removeHidden (hidden : List String) (doc : JValue) : JValue :=
  hidden.foldl (fun d f => setField d f JValue.undefined) doc

/-- The hook body registered by `setupModel`: when the payload is truthy and
the hidden list is non-empty, arrays are processed element-wise and a single
document directly; otherwise the payload is untouched. -/
def hideHook (hidden : List String) (data : JValue) : JValue :=
  if truthy data && hidden.length != 0 then
    match data with
    | .arr l => .arr (l.map (removeHidden hidden))
    | d => removeHidden hidden d
  else data

/-- The action list `setupModel` registers the hiding hook for (in source
order). -/
def hideActions : ActionArg :=
  .multi ["create", "find", "findOne", "delete", "update"]

/-! ## Exposed methods (`exposeMethod`, `exposeStatic`, `static`, routing) -/

/-- An exposed-method descriptor after normalization. -/
structure MethodDesc where
  name : String
  exposeName : String
deriving DecidableEq

/-- The argument accepted by the expose functions: a bare method name, or a
descriptor object carrying its own `exposeName`. -/
inductive MethodArg where
  | nameOnly (s : String)
  | full (name exposeName : String)

/-- The two normalization lines: a string becomes `{name: method}`, then
`Object.assign({exposeName: method.name}, method)` fills `exposeName` with the
name unless the object supplied one. -/
def normalizeMethod : MethodArg → MethodDesc
  | .nameOnly s => { name := s, exposeName := s }
  | .full n e => { name := n, exposeName := e }

/-- JavaScript `Array.prototype.findIndex`, with `none` for -1. -/
def findIndexAux (p : MethodDesc → Bool) : List MethodDesc → Option Nat
  | [] => none
  | d :: rest => if p d then some 0 else (findIndexAux p rest).map (· + 1)

/-- The wrapper state the expose functions touch: the exposed instance-method
list and the exposed static-method list. -/
structure Wrapper where
  methods : List MethodDesc
  statics : List MethodDesc

/-- `getMethods()`. -/
def getMethods (w : Wrapper) : List MethodDesc := w.methods

/-- `getStatics()`. -/
def getStatics (w : Wrapper) : List MethodDesc := w.statics

/-- `exposeMethod(method)`: requires `this.model()[method.name]` to be a
function (`modelFn` is that predicate on the resolved model object) and
appends the descriptor to the instance-method list; otherwise throws. -/
def exposeMethod (w : Wrapper) (modelFn : String → Bool) (arg : MethodArg) :
    Except String Wrapper :=
  let m := normalizeMethod arg
  if modelFn m.name then .ok { w with methods := w.methods ++ [m] }
  else .error ("Instance method " ++ m.name ++ " is not defined for model")

/-- `exposeStatic(method)`: requires `this.model().schema.statics[method.name]`
to be a function (`schemaStatics` is that predicate), replaces the descriptor
holding the same `exposeName` in place when one exists (`~index ?`), and
appends otherwise. -/
def exposeStatic (w : Wrapper) (schemaStatics : String → Bool) (arg : MethodArg) :
    Except String Wrapper :=
  let m := normalizeMethod arg
  if schemaStatics m.name then
    match findIndexAux (fun d => d.exposeName == m.exposeName) w.statics with
    | some i => .ok { w with statics := w.statics.set i m }
    | none => .ok { w with statics := w.statics ++ [m] }
  else .error ("Static method " ++ m.name ++ " is not defined for model")

/-- The `['static'](method)` shortcut; its body calls `this.exposeMethod`, not
`exposeStatic`. -/
def staticShortcut (w : Wrapper) (modelFn : String → Bool) (arg : MethodArg) :
    Except String Wrapper :=
  exposeMethod w modelFn arg

/-- The POST routes `setupModelRoutes` builds for exposed statics: one per
entry of `getStatics()`, at `path + '/' + method.exposeName`. -/
def staticRoutes (path : String) (w : Wrapper) : List String :=
  (getStatics w).map (fun d => path ++ "/" ++ d.exposeName)

/-! ## Invocation of exposed statics (`callStatic`) -/

/-- The result a model method returns: a plain value or a promise of one
(`result instanceof Promise ? result : Promise.resolve(result)`). -/
inductive MRes where
  | val (v : JValue)
  | promise (v : JValue)

/-- The value the normalized promise resolves with. -/
def awaitRes : MRes → JValue
  | .val v => v
  | .promise v => v

/-- A model static as `callStatic` sees it: declared parameter names (what
`getParamNames` introspects) and the function body; a thrown exception is an
`Except.error`, which the handler forwards to `next`. -/
structure SMethod where
  paramNames : List String
  impl : List JValue → Except ErrInfo MRes

/-- `getParamNames(_method).map(paramName => req.body[paramName])`. -/
def staticArgs (m : SMethod) (body : JValue) : List JValue :=
  m.paramNames.map (fun p => getField body p)

/-- `callStatic(method, req, res, next)`: init, pre hook, name-based argument
binding, invocation, promise normalization, post hook and response; throws and
rejections go to `next`. -/
def callStatic (m : SMethod) (body : JValue) : List Ev :=
  initEvents ++ [Ev.hook "pre" "static"] ++
  match m.impl (staticArgs m body) with
  | .error e => [Ev.nextErr e]
  | .ok r => [Ev.hook "post" "static", Ev.send (awaitRes r)]

/-- The static of the documentation example: `someMethod(param1, param2)`
returning `{message: param1 + ' ' + param2}`. -/
def exampleStaticMethod : SMethod :=
  { paramNames := ["param1", "param2"]
    impl := fun args =>
      .ok (.val (JValue.obj [("message",
        JValue.str (jsString (args.getD 0 JValue.undefined) ++ " " ++
          jsString (args.getD 1 JValue.undefined)))])) }

/-- The wrapper state of the repository test after
`exposeStatic('exposedStaticMethod')`. -/
def exampleWrapper : Wrapper :=
  { methods := []
    statics := [{ name := "exposedStaticMethod", exposeName := "exposedStaticMethod" }] }

/-- The schema statics of the repository test model: `exposedStaticMethod` and
`exposedStaticMethod2` are functions. -/
def exampleSchemaStatics : String → Bool :=
  fun s => s == "exposedStaticMethod" || s == "exposedStaticMethod2"

theorem htLookup_htSet (t : HookTable) (k : String) (v : List Nat) (s : String) :
    htLookup (htSet t k v) s = if s = k then some v else htLookup t s := by
  induction t with
  | nil =>
    by_cases h : s = k
    · subst h; simp [htSet, htLookup]
    · simp [htSet, htLookup, h, Ne.symm h]
  | cons p rest ih =>
    obtain ⟨k1, v1⟩ := p
    by_cases h1 : k1 = k
    · subst h1
      by_cases h2 : s = k1
      · subst h2; simp [htSet, htLookup]
      · simp [htSet, htLookup, h2, Ne.symm h2]
    · by_cases h2 : s = k1
      · subst h2
        simp [htSet, htLookup, h1, fun hc : s = k => h1 hc]
      · simp [htSet, htLookup, h1, h2, Ne.symm h2, ih]

theorem bucket_htSet (t : HookTable) (k : String) (v : List Nat) (s : String) :
    bucket (htSet t k v) s = if s = k then v else bucket t s := by
  by_cases h : s = k <;> simp [bucket, htLookup_htSet, h]

theorem bucket_ensureKey (t : HookTable) (k : String) (s : String) :
    bucket (ensureKey t k) s = bucket t s := by
  unfold ensureKey
  cases hl : htLookup t k with
  | some l => rfl
  | none =>
    by_cases h : s = k
    · subst h; simp [bucket, htLookup_htSet, hl]
    · simp [bucket, htLookup_htSet, h]

theorem bucket_addHookSingle (t : HookTable) (x : String) (cb : Nat) (s : String) :
    bucket (addHookSingle t x cb) s = bucket t s ++ (if x = s then [cb] else []) := by
  unfold addHookSingle
  by_cases h : s = x
  · subst h
    simp [bucket_htSet, bucket_ensureKey]
  · simp [bucket_htSet, h, bucket_ensureKey, Ne.symm h]

theorem bucket_foldl_addHookSingle (l : List String) (cb : Nat) (s : String) :
    ∀ t : HookTable,
      bucket (l.foldl (fun acc s1 => addHookSingle acc s1 cb) t) s =
        bucket t s ++ List.replicate (countOcc s l) cb := by
  induction l with
  | nil => intro t; simp [countOcc]
  | cons x xs ih =>
    intro t
    simp only [List.foldl_cons]
    rw [ih, bucket_addHookSingle]
    by_cases h : x = s
    · subst h
      simp only [countOcc, List.append_assoc]
      simp [List.replicate_succ, Nat.add_comm]
    · simp [countOcc, h]

theorem bucket_addHook (t : HookTable) (a : ActionArg) (cb : Nat) (s : String) :
    bucket (addHook t a cb) s = bucket t s ++ List.replicate (matchCount a s) cb := by
  cases a with
  | single x =>
    unfold addHook
    simp only [keyOf]
    by_cases h : x = s
    · subst h
      simp [bucket_htSet, bucket_ensureKey, matchCount]
    · simp [bucket_htSet, bucket_ensureKey, matchCount, h, Ne.symm h]
  | multi l =>
    unfold addHook
    simp only [bucket_foldl_addHookSingle, bucket_ensureKey, matchCount]

theorem bucket_buildHooks_aux (regs : List (ActionArg × Nat)) (s : String) :
    ∀ t : HookTable,
      bucket (regs.foldl (fun t1 r => addHook t1 r.1 r.2) t) s =
        bucket t s ++ registeredFor regs s := by
  induction regs with
  | nil => intro t; simp [registeredFor]
  | cons r rs ih =>
    intro t
    simp only [List.foldl_cons]
    rw [ih, bucket_addHook, registeredFor, List.append_assoc]

theorem bucket_buildHooks (regs : List (ActionArg × Nat)) (s : String) :
    bucket (buildHooks regs) s = registeredFor regs s := by
  have h := bucket_buildHooks_aux regs s []
  simpa [buildHooks, bucket, htLookup] using h

/-- C2: for every hook table built by `addHook`, `applyHooks` on a phase table
synchronously invokes exactly the callbacks registered for the action, in
registration order, followed by the callbacks registered for `'all'` in
registration order, each called with `(req, res, payload)`. -/
theorem applyHooks_spec (regs : List (ActionArg × Nat)) (action : String)
    (req : ρ) (res : σ) (payload : α) :
    applyHooks (buildHooks regs) action req res payload =
      (registeredFor regs action ++ registeredFor regs "all").map
        (fun h => (h, req, res, payload)) := by
  have h1 := bucket_buildHooks regs action
  have h2 := bucket_buildHooks regs "all"
  simp only [applyHooks]
  simp only [bucket] at h1 h2
  rw [h1, h2]

/-! ## Helper lemmas on field assignment and hiding -/

theorem lookupField_setFields (fs : List (String × JValue)) (k : String) (v : JValue)
    (f : String) :
    lookupField (setFields fs k v) f = if f = k then v else lookupField fs f := by
  induction fs with
  | nil =>
    by_cases h : f = k
    · subst h; simp [setFields, lookupField]
    · simp [setFields, lookupField, h, Ne.symm h]
  | cons p rest ih =>
    obtain ⟨k1, v1⟩ := p
    by_cases h1 : k1 = k
    · subst h1
      by_cases h2 : f = k1
      · subst h2; simp [setFields, lookupField]
      · simp [setFields, lookupField, h2, Ne.symm h2]
    · by_cases h2 : f = k1
      · subst h2
        simp [setFields, lookupField, h1, fun hc : f = k => h1 hc]
      · simp [setFields, lookupField, h1, h2, Ne.symm h2, ih]

theorem removeHidden_cons (g : String) (rest : List String) (d : JValue) :
    removeHidden (g :: rest) d = removeHidden rest (setField d g JValue.undefined) := rfl

theorem getField_removeHidden_not_mem (hidden : List String) (f : String)
    (hf : f ∉ hidden) (fs : List (String × JValue)) :
    getField (removeHidden hidden (JValue.obj fs)) f = getField (JValue.obj fs) f := by
  induction hidden generalizing fs with
  | nil => rfl
  | cons g rest ih =>
    have hfr : f ∉ rest := fun hx => hf (List.mem_cons_of_mem _ hx)
    have hfg : f ≠ g := fun hx => hf (hx ▸ List.mem_cons_self _ _)
    rw [removeHidden_cons,
      show setField (JValue.obj fs) g JValue.undefined =
        JValue.obj (setFields fs g JValue.undefined) from rfl,
      ih hfr]
    simp [getField, lookupField_setFields, hfg]

theorem getField_removeHidden_mem (hidden : List String) (f : String)
    (hf : f ∈ hidden) (fs : List (String × JValue)) :
    getField (removeHidden hidden (JValue.obj fs)) f = JValue.undefined := by
  induction hidden generalizing fs with
  | nil => cases hf
  | cons g rest ih =>
    rw [removeHidden_cons,
      show setField (JValue.obj fs) g JValue.undefined =
        JValue.obj (setFields fs g JValue.undefined) from rfl]
    by_cases hr : f ∈ rest
    · exact ih hr _
    · have hfg : f = g := by
        rcases List.mem_cons.mp hf with h | h
        · exact h
        · exact absurd h hr
      subst hfg
      rw [getField_removeHidden_not_mem rest f hr]
      simp [getField, lookupField_setFields]

/-! ## Helper lemmas on findIndex -/

theorem findIndexAux_eq_none (p : MethodDesc → Bool) (l : List MethodDesc)
    (h : ∀ d ∈ l, p d = false) : findIndexAux p l = none := by
  induction l with
  | nil => rfl
  | cons d rest ih =>
    have hd := h d (List.mem_cons_self _ _)
    simp [findIndexAux, hd, ih (fun x hx => h x (List.mem_cons_of_mem _ hx))]

theorem findIndexAux_some_get (p : MethodDesc → Bool) (l : List MethodDesc) (i : Nat)
    (h : findIndexAux p l = some i) : ∃ d, l[i]? = some d ∧ p d = true := by
  induction l generalizing i with
  | nil => simp [findIndexAux] at h
  | cons d rest ih =>
    by_cases hp : p d
    · simp [findIndexAux, hp] at h
      subst h
      exact ⟨d, by simp, hp⟩
    · simp [findIndexAux, hp] at h
      obtain ⟨j, hj, hij⟩ := h
      obtain ⟨e, he, hpe⟩ := ih j hj
      subst hij
      exact ⟨e, by simpa using he, hpe⟩

/-! ## Claim theorems -/

/-- C1 (code bug): the guard of `create` was meant to reject every body that is
not a non-array object, but `!req.body instanceof Object` tests the boolean
`!req.body` against `Object`, which is always false, so only arrays are
rejected: a string body sails past the 400 error, the init and create hooks
run, and the mapper insert receives the string. Array bodies are still
rejected with the 400 error before any hook or mapper call. -/
theorem createNonObjectBodyBug :
    createHandler (JValue.str "oops") (.inl (JValue.obj [("ok", JValue.bool true)])) =
      [Ev.hook "pre" "init", Ev.hook "post" "init", Ev.hook "pre" "create",
       Ev.mapperCreate (JValue.str "oops"), Ev.hook "post" "create",
       Ev.send (JValue.obj [("ok", JValue.bool true)])]
    ∧ createHandler (JValue.arr [JValue.obj []]) (.inl (JValue.obj [])) =
        [Ev.nextErr onlyObjectsError]
    ∧ onlyObjectsError.statusCode = some 400 :=
  ⟨rfl, rfl, rfl⟩

/-- C4: a null `findOne` lookup forwards the 404 `NotFoundError` with message
`'Document Not Found'` to `next`, sends nothing and never reaches the post
hooks; a found document runs the post-findOne hooks and is sent. -/
theorem findOne_notFound_spec (jp : String → Option JValue) (q : JValue) (id : String)
    (d : JValue) :
    sentOf (findOneHandler jp q id none) = []
    ∧ errsOf (findOneHandler jp q id none) = [notFoundError]
    ∧ hooksOf (findOneHandler jp q id none) =
        [("pre", "init"), ("post", "init"), ("pre", "findOne")]
    ∧ notFoundError.message = "Document Not Found"
    ∧ notFoundError.statusCode = some 404
    ∧ hooksOf (findOneHandler jp q id (some d)) =
        [("pre", "init"), ("post", "init"), ("pre", "findOne"), ("post", "findOne")]
    ∧ sentOf (findOneHandler jp q id (some d)) = [d]
    ∧ errsOf (findOneHandler jp q id (some d)) = [] :=
  ⟨rfl, rfl, rfl, rfl, rfl, rfl, rfl, rfl⟩

/-- C5 counterexample: on a missed id, update forwards the error built in
`findById` — message `'Not Found'`, 404 carried in `status` — while findOne
forwards `NotFoundError` — message `'Document Not Found'`, 404 carried in
`statusCode`; the two errors are not the same. -/
theorem findById_error_counterexample :
    errsOf (updateHandler (JValue.obj []) "9" none (.inl (JValue.obj []))) = [findByIdError]
    ∧ errsOf (findOneHandler (fun _ => none) (JValue.obj []) "9" none) = [notFoundError]
    ∧ findByIdError ≠ notFoundError
    ∧ findByIdError.message ≠ notFoundError.message
    ∧ findByIdError.statusCode = none :=
  ⟨rfl, rfl, by decide, by decide, rfl⟩

/-- C5 (amended): on an id matching no document, update and delete forward a
404 error (message `'Not Found'`, name `'ModelNotFound'`, 404 in its `status`
field — a different error object from findOne's `'Document Not Found'`
`statusCode` error), run no pre- or post-hooks for that action, and perform no
save or remove mapper call. -/
theorem update_delete_notFound_amended (body : JValue) (id : String)
    (saveR removeR : JValue ⊕ ErrInfo) :
    hooksOf (updateHandler body id none saveR) = [("pre", "init"), ("post", "init")]
    ∧ errsOf (updateHandler body id none saveR) = [findByIdError]
    ∧ savesOf (updateHandler body id none saveR) = []
    ∧ sentOf (updateHandler body id none saveR) = []
    ∧ hooksOf (deleteHandler id none removeR) = [("pre", "init"), ("post", "init")]
    ∧ errsOf (deleteHandler id none removeR) = [findByIdError]
    ∧ removesOf (deleteHandler id none removeR) = []
    ∧ sentOf (deleteHandler id none removeR) = []
    ∧ findByIdError.status = some 404
    ∧ findByIdError.message = "Not Found" :=
  ⟨rfl, rfl, rfl, rfl, rfl, rfl, rfl, rfl, rfl, rfl⟩

/-- C10: the filter handed to the mapper count call is the entire query-string
mapping itself — every query parameter becomes a filter field, with no
dedicated `filter` parameter involved — and the response body is
`{count: n}` for the mapper's result `n`. -/
theorem count_filter_spec (jp : String → Option JValue) (fs : List (String × JValue))
    (n : Int) :
    countFiltersOf (countHandler jp (JValue.obj fs) (.inl n)) = [JValue.obj fs]
    ∧ sentOf (countHandler jp (JValue.obj fs) (.inl n)) =
        [JValue.obj [("count", JValue.num n)]]
    ∧ countFiltersOf (countHandler jp (JValue.obj [("_id", JValue.str "2")]) (.inl n)) =
        [JValue.obj [("_id", JValue.str "2")]] :=
  ⟨rfl, rfl, rfl⟩

/-- C3: with a non-empty hidden list, the hook `setupModel` registers sets
every hidden field to undefined on an outbound object document, maps arrays
element-wise, and is registered for exactly the
create/find/findOne/delete/update buckets — appended after the hooks already
there — while the count bucket is untouched. -/
theorem hiddenFields_spec (hidden : List String) (hne : hidden ≠ [])
    (f : String) (hf : f ∈ hidden) (fs : List (String × JValue)) (l : List JValue)
    (t : HookTable) (cb : Nat) :
    getField (hideHook hidden (JValue.obj fs)) f = JValue.undefined
    ∧ hideHook hidden (JValue.arr l) = JValue.arr (l.map (removeHidden hidden))
    ∧ (∀ gs : List (String × JValue),
        getField (removeHidden hidden (JValue.obj gs)) f = JValue.undefined)
    ∧ bucket (addHook t hideActions cb) "count" = bucket t "count"
    ∧ (∀ a ∈ ["create", "find", "findOne", "delete", "update"],
        bucket (addHook t hideActions cb) a = bucket t a ++ [cb]) := by
  have hlen : (hidden.length != 0) = true := by
    cases hidden with
    | nil => exact absurd rfl hne
    | cons x xs => simp
  refine ⟨?_, ?_, ?_, ?_, ?_⟩
  · simp [hideHook, truthy, hlen, getField_removeHidden_mem hidden f hf]
  · simp [hideHook, truthy, hlen]
  · intro gs
    exact getField_removeHidden_mem hidden f hf gs
  · rw [bucket_addHook]
    simp [hideActions, matchCount, countOcc]
  · intro a ha
    fin_cases ha <;> rw [bucket_addHook] <;> simp [hideActions, matchCount, countOcc]

/-- Witness for hiddenFields_spec at the repository test configuration
`hide(['field1','field2'])`. -/
theorem hiddenFields_spec_witness :
    (["field1", "field2"] : List String) ≠ []
    ∧ "field1" ∈ ["field1", "field2"]
    ∧ getField (hideHook ["field1", "field2"]
        (JValue.obj [("field1", JValue.str "111")])) "field1" = JValue.undefined :=
  ⟨by decide, by decide,
   (hiddenFields_spec ["field1", "field2"] (by decide) "field1" (by decide)
     [("field1", JValue.str "111")] [] [] 0).1⟩

/-- C6 counterexample: with `start=5` in the query and no `skip`, the parsed
options carry no skip entry at all, although `Number('5')` is 5 — the claimed
fall-back to `start` for an absent `skip` does not happen. -/
theorem options_skip_fallback_counterexample :
    optLookup (parseQueryOptions (JValue.obj [("start", JValue.str "5")])) "skip" = none
    ∧ jsNumber (JValue.str "5") = some 5 :=
  ⟨rfl, rfl⟩

/-- C6 (amended): sort is the string coercion of the raw sort value when sort
is present, limit the number coercion when limit is present, and skip the
number coercion of `skip || start` computed only when skip is present — the
`start` fall-back applies to a present-but-falsy skip, never to an absent one;
keys absent from the query are absent from the options result. -/
theorem parseQueryOptions_amended (q : JValue) :
    optLookup (parseQueryOptions q) "sort" =
      (if typeof (getField q "sort") ≠ "undefined"
       then some (.strv (jsString (getField q "sort"))) else none)
    ∧ optLookup (parseQueryOptions q) "skip" =
      (if typeof (getField q "skip") ≠ "undefined"
       then some (.numv (jsNumber (jsOr (getField q "skip") (getField q "start"))))
       else none)
    ∧ optLookup (parseQueryOptions q) "limit" =
      (if typeof (getField q "limit") ≠ "undefined"
       then some (.numv (jsNumber (getField q "limit"))) else none)
    ∧ optLookup (parseQueryOptions (JValue.obj [("skip", JValue.str ""), ("start", JValue.str "5")]))
        "skip" = some (.numv (some 5)) := by
  refine ⟨?_, ?_, ?_, rfl⟩ <;>
  · by_cases h1 : typeof (getField q "sort") = "undefined" <;>
    by_cases h2 : typeof (getField q "skip") = "undefined" <;>
    by_cases h3 : typeof (getField q "limit") = "undefined" <;>
      simp [parseQueryOptions, optionKeys, formatOption, optLookup, h1, h2, h3]

/-- C7: the argument list of an exposed static invocation maps the declared
parameter names, in declaration order, to the same-named body fields, so two
bodies agreeing field-wise produce identical runs regardless of key order; the
result is sent after promise normalization, whether or not it was a promise. -/
theorem callStatic_binding_spec (m : SMethod) (b1 b2 : JValue)
    (hagree : ∀ k : String, getField b1 k = getField b2 k) :
    staticArgs m b1 = m.paramNames.map (fun p => getField b1 p)
    ∧ staticArgs m b1 = staticArgs m b2
    ∧ callStatic m b1 = callStatic m b2
    ∧ (∀ v : JValue, m.impl (staticArgs m b1) = .ok (.promise v) →
        sentOf (callStatic m b1) = [v])
    ∧ (∀ v : JValue, m.impl (staticArgs m b1) = .ok (.val v) →
        sentOf (callStatic m b1) = [v]) := by
  have hargs : staticArgs m b1 = staticArgs m b2 := by
    simp [staticArgs, hagree]
  refine ⟨rfl, hargs, ?_, ?_, ?_⟩
  · simp [callStatic, hargs]
  · intro v hv
    simp [callStatic, sentOf, hv, awaitRes, initEvents]
  · intro v hv
    simp [callStatic, sentOf, hv, awaitRes, initEvents]

/-- Witness for callStatic_binding_spec at the documented example: bodies
listing `param2` before `param1` and vice versa give the same run, and the sent
message is built from the parameters bound by name. -/
theorem callStatic_binding_spec_witness :
    (∀ k : String,
      getField (JValue.obj [("param2", JValue.str "world"), ("param1", JValue.str "hello")]) k =
        getField (JValue.obj [("param1", JValue.str "hello"), ("param2", JValue.str "world")]) k)
    ∧ callStatic exampleStaticMethod
        (JValue.obj [("param2", JValue.str "world"), ("param1", JValue.str "hello")]) =
      callStatic exampleStaticMethod
        (JValue.obj [("param1", JValue.str "hello"), ("param2", JValue.str "world")])
    ∧ sentOf (callStatic exampleStaticMethod
        (JValue.obj [("param2", JValue.str "world"), ("param1", JValue.str "hello")])) =
      [JValue.obj [("message", JValue.str "hello world")]] := by
  have hagree : ∀ k : String,
      getField (JValue.obj [("param2", JValue.str "world"), ("param1", JValue.str "hello")]) k =
        getField (JValue.obj [("param1", JValue.str "hello"), ("param2", JValue.str "world")]) k := by
    intro k
    by_cases h1 : "param2" = k
    · by_cases h2 : "param1" = k
      · exact absurd (h1.trans h2.symm) (by decide)
      · simp [getField, lookupField, h1, h2]
    · by_cases h2 : "param1" = k
      · simp [getField, lookupField, h1, h2]
      · simp [getField, lookupField, h1, h2]
  exact ⟨hagree,
    (callStatic_binding_spec exampleStaticMethod _ _ hagree).2.2.1, rfl⟩

/-- C8: `exposeStatic` succeeds exactly when the named method is a function
among the model's schema statics; a descriptor sharing the `exposeName` of an
existing entry replaces it at its position — the entry there had that
`exposeName` and the list length is unchanged — and otherwise the descriptor
is appended. -/
theorem exposeStatic_spec (w : Wrapper) (schemaStatics : String → Bool) (arg : MethodArg) :
    ((∃ w2, exposeStatic w schemaStatics arg = .ok w2) ↔
      schemaStatics (normalizeMethod arg).name = true)
    ∧ (schemaStatics (normalizeMethod arg).name = true →
        (∀ i, findIndexAux
            (fun d => d.exposeName == (normalizeMethod arg).exposeName)
            (getStatics w) = some i →
          exposeStatic w schemaStatics arg =
              .ok { w with statics := (getStatics w).set i (normalizeMethod arg) }
            ∧ ((getStatics w).set i (normalizeMethod arg)).length = (getStatics w).length
            ∧ ∃ d, (getStatics w)[i]? = some d
                ∧ d.exposeName = (normalizeMethod arg).exposeName)
        ∧ ((∀ d ∈ getStatics w, d.exposeName ≠ (normalizeMethod arg).exposeName) →
          exposeStatic w schemaStatics arg =
            .ok { w with statics := getStatics w ++ [normalizeMethod arg] })) := by
  constructor
  · constructor
    · rintro ⟨w2, hw2⟩
      by_contra hc
      simp only [Bool.not_eq_true] at hc
      simp [exposeStatic, hc] at hw2
    · intro hfn
      unfold exposeStatic
      simp only [hfn, if_pos]
      cases hidx : findIndexAux
          (fun d => d.exposeName == (normalizeMethod arg).exposeName) w.statics with
      | some i => exact ⟨_, rfl⟩
      | none => exact ⟨_, rfl⟩
  · intro hfn
    constructor
    · intro i hi
      refine ⟨?_, List.length_set .., ?_⟩
      · unfold exposeStatic
        simp only [hfn, if_pos]
        rw [show getStatics w = w.statics from rfl] at hi
        rw [hi]
        rfl
      · obtain ⟨d, hd, hpd⟩ := findIndexAux_some_get _ _ _ hi
        exact ⟨d, hd, by simpa using hpd⟩
    · intro hall
      have hnone : findIndexAux
          (fun d => d.exposeName == (normalizeMethod arg).exposeName) (getStatics w) = none :=
        findIndexAux_eq_none _ _ (fun d hd => by simpa using hall d hd)
      unfold exposeStatic
      simp only [hfn, if_pos]
      rw [show getStatics w = w.statics from rfl] at hnone
      rw [hnone]
      rfl

/-- Witness for exposeStatic_spec at the repository test scenario: re-exposing
`exposedStaticMethod2` under the already-used exposeName
`exposedStaticMethod` replaces the earlier descriptor in place. -/
theorem exposeStatic_spec_witness :
    exampleSchemaStatics
      (normalizeMethod (MethodArg.full "exposedStaticMethod2" "exposedStaticMethod")).name = true
    ∧ findIndexAux
        (fun d => d.exposeName ==
          (normalizeMethod (MethodArg.full "exposedStaticMethod2" "exposedStaticMethod")).exposeName)
        (getStatics exampleWrapper) = some 0
    ∧ exposeStatic exampleWrapper exampleSchemaStatics
        (MethodArg.full "exposedStaticMethod2" "exposedStaticMethod") =
      Except.ok (Wrapper.mk []
        [MethodDesc.mk "exposedStaticMethod2" "exposedStaticMethod"]) :=
  ⟨rfl, rfl,
   (((exposeStatic_spec exampleWrapper exampleSchemaStatics
      (MethodArg.full "exposedStaticMethod2" "exposedStaticMethod")).2 rfl).1 0 rfl).1⟩

/-- C9: the `static` shortcut delegates to `exposeMethod`, so for a method
that exists as a function on the model it appends to the instance-method list
(seen through `getMethods`), leaves the statics list (seen through
`getStatics`) unchanged, and router assembly builds no new POST route from
it. -/
theorem staticShortcut_spec (w : Wrapper) (modelFn : String → Bool) (arg : MethodArg)
    (path : String) (h : modelFn (normalizeMethod arg).name = true) :
    staticShortcut w modelFn arg = exposeMethod w modelFn arg
    ∧ ∃ w2, staticShortcut w modelFn arg = .ok w2
        ∧ getMethods w2 = getMethods w ++ [normalizeMethod arg]
        ∧ getStatics w2 = getStatics w
        ∧ staticRoutes path w2 = staticRoutes path w := by
  refine ⟨rfl, { w with methods := w.methods ++ [normalizeMethod arg] }, ?_, rfl, rfl, rfl⟩
  simp [staticShortcut, exposeMethod, h]

/-- Witness for staticShortcut_spec on an empty wrapper and an
always-function model. -/
theorem staticShortcut_spec_witness :
    (fun _ : String => true) (normalizeMethod (MethodArg.nameOnly "someMethod")).name = true
    ∧ (staticShortcut ⟨[], []⟩ (fun _ => true) (MethodArg.nameOnly "someMethod") =
        exposeMethod ⟨[], []⟩ (fun _ => true) (MethodArg.nameOnly "someMethod")
      ∧ ∃ w2, staticShortcut ⟨[], []⟩ (fun _ => true) (MethodArg.nameOnly "someMethod") = .ok w2
          ∧ getMethods w2 = getMethods ⟨[], []⟩ ++ [normalizeMethod (MethodArg.nameOnly "someMethod")]
          ∧ getStatics w2 = getStatics ⟨[], []⟩
          ∧ staticRoutes "/tests" w2 = staticRoutes "/tests" ⟨[], []⟩) :=
  ⟨rfl, staticShortcut_spec ⟨[], []⟩ (fun _ => true) (MethodArg.nameOnly "someMethod") "/tests" rfl⟩
